import Mathlib

/-!
Shallow embedding of `src/opensciencegrid/gracc-apel/apel_report.py`
(GRACC-based APEL reporting script), together with theorems settling the
specification claims about its aggregation-and-normalization core.

Modelling conventions:
* Python floats are modelled as `ℚ` (exact arithmetic), epoch times and
  durations as `ℤ`.
* Python `int(x)` on a number truncates toward zero: `pyTrunc`.
* Python dicts keyed by strings are modelled as association lists
  (`List (String × _)`) looked up with `List.lookup`, or as functions to
  `Option` where the claim is about keyed accumulation.
-/

namespace ApelReport

/-- Python `int()` applied to a numeric value: truncation toward zero. -/
def pyTrunc (q : ℚ) : ℤ := if 0 ≤ q then ⌊q⌋ else -⌊-q⌋

/-- `statistics.mean` on a list of rationals: sum divided by length. -/
def mean (l : List ℚ) : ℚ := l.sum / l.length

/-! ### Hardware-portion resolver (`get_hs23_portion`, lines 35-64)

One entry of the topology JSON: a resource, optionally carrying
`WLCGInformation.HEPScore23Percentage` (a numeric string, parsed with
`float(...)` in the code). -/

structure Resource where
  hepScore23Percentage : Option ℚ
deriving DecidableEq, Repr

/-- The map-building loop of `get_hs23_portion` (lines 53-62): for each
resource group collect the present `HEPScore23Percentage` values; store their
`mean` when at least one is present, else `0.0`. -/
def build_resource_group_map (raw_json : List (String × List Resource)) :
    List (String × ℚ) :=
  raw_json.map fun rg =>
    let hep_spec_percentages := rg.2.filterMap fun r => r.hepScore23Percentage
    (rg.1,
      if 0 < hep_spec_percentages.length then mean hep_spec_percentages else 0)

/-- `get_hs23_portion` after the map has been fetched (line 64):
`resource_group_map.get(resource_group, 0.0)`. -/
def get_hs23_portion (resource_group_map : List (String × ℚ))
    (resource_group : String) : ℚ :=
  (resource_group_map.lookup resource_group).getD 0

/-! ### Normalization-factor resolution (`norm_factor`, lines 137-163) -/

/-- `fixed_normalizationfactor` / `nf_default` (lines 118, 139). -/
def nf_default : ℚ := 12

/-- `nf_max` (line 138). -/
def nf_max : ℚ := 200

/-- `norm_factor(bkt, site)` (lines 137-163).  `normalFactorKeys` stands for
`[b.key for b in bkt.NormalFactor.buckets]`; `nf_table` is the side-table
loaded by `normal_hepspec_table` (an external file, passed as a parameter). -/
def norm_factor (nf_table : List (String × ℚ)) (normalFactorKeys : List ℚ)
    (site : String) : ℚ :=
  let nf_values := normalFactorKeys.filter fun b => 0 < b
  let nf :=
    if nf_values.length = 0 then nf_default
    else if nf_values.length = 1 then nf_values.headI
    else 1 * nf_values.sum / nf_values.length
  if nf ≥ nf_max then
    match nf_table.lookup site with
    | some v => v
    | none => nf_default
  else nf

/-- Modelled from the spec: `resolveFactor(observedFactors, site)` exactly as
§4.4 / §8 of the spec word it — filter to strictly positive values; none
remain → 12.0; exactly one → that value; several → their arithmetic mean;
a result ≥ 200.0 is replaced by the table entry for `site` or 12.0.  Used
only to compare against `norm_factor` (refinement). -/
def resolveFactorSpec (nf_table : List (String × ℚ)) (observed : List ℚ)
    (site : String) : ℚ :=
  let pos := observed.filter fun b => 0 < b
  let base :=
    if pos = [] then 12
    else if pos.length = 1 then pos.headI
    else pos.sum / pos.length
  if 200 ≤ base then (nf_table.lookup site).getD 12 else base

/-! ### Record merge model (lines 175-200) -/

/-- `RecordKey = namedtuple('RecordKey', ['vo', 'site', 'cores', 'dn'])`. -/
structure RecordKey where
  vo : String
  site : String
  cores : ℤ
  dn : String
deriving DecidableEq, Repr

/-- `Record = namedtuple('Record', [...])` (lines 176-177). -/
structure Record where
  mintime : ℤ
  maxtime : ℤ
  walldur : ℤ
  cpudur : ℤ
  nf : ℚ
  njobs : ℤ
deriving DecidableEq, Repr

/-- `record_adder(a, b)` (lines 191-198), installed as `Record.__add__`. -/
def record_adder (a b : Record) : Record :=
  { mintime := min a.mintime b.mintime
    maxtime := max a.maxtime b.maxtime
    walldur := a.walldur + b.walldur
    cpudur := a.cpudur + b.cpudur
    nf := min a.nf b.nf
    njobs := a.njobs + b.njobs }

/-- The Record invariant stated by the spec (§3): earliest end time is no
later than latest end time, and durations and job count are non-negative. -/
def RecordInvariant (r : Record) : Prop :=
  r.mintime ≤ r.maxtime ∧ 0 ≤ r.walldur ∧ 0 ≤ r.cpudur ∧ 0 ≤ r.njobs

/-! ### Leaf buckets and record extraction (lines 69-78, 179-189) -/

/-- The metrics of one leaf bucket of the aggregation response, as read by
`bkt_record` and `norm_factor`: the `NormalFactor` sub-bucket keys and the
summed/min/max metric values (OpenSearch reports them as floats; end times
are epoch milliseconds). -/
structure Bkt where
  normalFactorKeys : List ℚ
  cpuDuration_system : ℚ
  cpuDuration_user : ℚ
  cpuDuration : ℚ
  wallDuration : ℚ
  numberOfJobs : ℚ
  earliestEndTime : ℚ
  latestEndTime : ℚ
deriving DecidableEq, Repr

/-- `bkt_record(bkt, site)` (lines 179-189): truncate times (milliseconds to
seconds) and durations, prefer user+system CPU time unless both are zero,
resolve the normalization factor per leaf. -/
def bkt_record (nf_table : List (String × ℚ)) (bkt : Bkt) (site : String) :
    Record :=
  let mintime := pyTrunc (bkt.earliestEndTime / 1000)
  let maxtime := pyTrunc (bkt.latestEndTime / 1000)
  let walldur := pyTrunc bkt.wallDuration
  let cpudur :=
    if bkt.cpuDuration_user = 0 ∧ bkt.cpuDuration_system = 0 then
      pyTrunc bkt.cpuDuration
    else
      pyTrunc (bkt.cpuDuration_user + bkt.cpuDuration_system)
  let nf := norm_factor nf_table bkt.normalFactorKeys site
  let njobs := pyTrunc bkt.numberOfJobs
  Record.mk mintime maxtime walldur cpudur nf njobs

/-! ### Site aliasing and accumulation (lines 167-173, 202-224) -/

/-- `site_map` (lines 202-206). -/
def site_map : List (String × String) :=
  [("Crane", "Nebraska"), ("Sandhills", "Nebraska"), ("Tusker", "Nebraska")]

/-- `site_vo_map` (lines 210-212). -/
def site_vo_map : List ((String × String) × String) :=
  [(("MIT_CMS", "lhcb"), "MIT_LHCb")]

/-- The two aliasing steps at the top of `add_record` (lines 215-219):
the site-only rename, then the (site, vo) rename on the result. -/
def canonical_site (site vo : String) : String :=
  let site1 :=
    match site_map.lookup site with
    | some s => s
    | none => site
  match site_vo_map.lookup (site1, vo) with
  | some s => s
  | none => site1

/-- What `recs[rk]` yields inside an `autodict` (lines 167-173): either the
stored record, or — for a missing key — a freshly defaulted empty `autodict`
whose `__add__` returns the other operand. -/
inductive AccEntry where
  | autodictDefault
  | stored (r : Record)
deriving DecidableEq

/-- Addition as dispatched by `recs[rk] += rec`: `autodict.__add__` returns
the other operand (line 170-171); a stored `Record` adds with
`record_adder` (line 200). -/
def autodict_add : AccEntry → Record → Record
  | .autodictDefault, other => other
  | .stored a, b => record_adder a b

/-- The accumulator map `recs`, as a keyed partial map. -/
def Recs := RecordKey → Option Record

/-- Reading `recs[rk]` from an `autodict`: a missing key defaults to an
empty `autodict` value. -/
def recs_get (recs : Recs) (rk : RecordKey) : AccEntry :=
  match recs rk with
  | some r => .stored r
  | none => .autodictDefault

/-- The statement `recs[rk] += rec` (line 224): store
`recs[rk] + rec` under `rk`, where the left operand is the defaulted read. -/
def recs_iadd (recs : Recs) (rk : RecordKey) (rec1 : Record) : Recs :=
  fun k =>
    if k = rk then some (autodict_add (recs_get recs rk) rec1) else recs k

/-- `add_record(recs, vo, site, cores, dn, bkt)` (lines 214-224). -/
def add_record (nf_table : List (String × ℚ)) (recs : Recs) (vo site : String)
    (cores : ℤ) (dn : String) (bkt : Bkt) : Recs :=
  let site2 := canonical_site site vo
  let rk := RecordKey.mk vo site2 cores dn
  let rec1 := bkt_record nf_table bkt site2
  recs_iadd recs rk rec1

/-! ### Report emitter (`print_rk_recr`, lines 229-276) -/

/-- `math.isclose` with Python's default tolerances: relative tolerance
`1e-9`, absolute tolerance `0.0`. -/
def isclose_rel_tol : ℚ := 1 / 1000000000

/-- Python's default `abs_tol` for `math.isclose`. -/
def isclose_abs_tol : ℚ := 0

/-- `math.isclose(a, b)` with default tolerances:
`abs(a-b) <= max(rel_tol * max(abs(a), abs(b)), abs_tol)`. -/
def isclose (a b : ℚ) : Bool :=
  |a - b| ≤ max (isclose_rel_tol * max |a| |b|) isclose_abs_tol

/-- `fixed_infrastructure` (line 116). -/
def fixed_infrastructure : String := "grid"

/-- `fixed_nodecount` (line 117). -/
def fixed_nodecount : ℤ := 1

/-- One record block written by the loop body of `print_rk_recr`
(lines 260-276), with the normalised-duration dictionary split into its
metric name and value. -/
structure OutputLine where
  site : String
  submitHost : String
  vo : String
  earliestEndTime : ℤ
  latestEndTime : ℤ
  month : ℤ
  year : ℤ
  infrastructure : String
  globalUserName : String
  processors : ℤ
  nodeCount : ℤ
  wallDuration : ℤ
  cpuDuration : ℤ
  normalisedMetricName : String
  normalisedWallDuration : ℤ
  normalisedCpuDuration : ℤ
  numberOfJobs : ℤ
deriving DecidableEq, Repr

/-- The body of the `for submit_host in range(len(submit_hosts))` loop
(lines 260-276), given the already-computed user name, portion and metric
name for this index. -/
def apel_line (year month : ℤ) (rk : RecordKey) (rec1 : Record) (dn : String)
    (submitHost : String) (portion : ℚ) (metric_name : String) : OutputLine :=
  { site := rk.site
    submitHost := submitHost
    vo := rk.vo
    earliestEndTime := rec1.mintime
    latestEndTime := rec1.maxtime + 60 * 60 * 24 - 1
    month := month
    year := year
    infrastructure := fixed_infrastructure
    globalUserName := dn
    processors := rk.cores
    nodeCount := fixed_nodecount
    wallDuration := pyTrunc (rec1.walldur * portion)
    cpuDuration := pyTrunc (rec1.cpudur * portion)
    normalisedMetricName := metric_name
    normalisedWallDuration := pyTrunc (rec1.walldur * rec1.nf * portion)
    normalisedCpuDuration := pyTrunc (rec1.cpudur * rec1.nf * portion)
    numberOfJobs := pyTrunc (rec1.njobs * portion) }

/-- `print_rk_recr(year, month, rk, rec, ...)` (lines 229-276), returning the
emitted record blocks instead of writing them.  The `resource_group_map`
parameter is the fetched topology map consulted by `get_hs23_portion`. -/
def print_rk_recr (resource_group_map : List (String × ℚ)) (year month : ℤ)
    (rk : RecordKey) (rec1 : Record) : List OutputLine :=
  let dn := if rk.dn = "N/A" then "generic " ++ rk.vo ++ " user" else rk.dn
  let hs23_portion := get_hs23_portion resource_group_map rk.site
  let submit_hosts :=
    if isclose hs23_portion 0 then ["hepspec-hosts"]
    else ["hepspec-hosts", "hepscore-hosts"]
  (List.range submit_hosts.length).map fun submit_host =>
    let portion := if submit_host = 0 then 1 - hs23_portion else hs23_portion
    let metric_name := if submit_host = 0 then "hepspec" else "HEPscore23"
    apel_line year month rk rec1 dn (submit_hosts.getD submit_host "")
      portion metric_name

/-! ### Command-line handling (`main`, lines 293-301) -/

/-- Validity of the digit part of a Python integer literal after the first
character: digits, with single underscores allowed only between digits. -/
def pyIntDigitsRest : List Char → Bool
  | [] => true
  | '_' :: c :: cs => c.isDigit && pyIntDigitsRest cs
  | c :: cs => c.isDigit && pyIntDigitsRest cs

/-- Validity of the digit part of a Python integer literal: non-empty,
starting with a digit. -/
def pyIntDigits : List Char → Bool
  | [] => false
  | c :: cs => c.isDigit && pyIntDigitsRest cs

/-- Numeric value of a digit-and-underscore run (underscores skipped). -/
def pyIntValue (l : List Char) : ℕ :=
  l.foldl (fun n c => if c.isDigit then 10 * n + (c.toNat - 48) else n) 0

/-- `int(s)` on a whitespace-stripped character list: optional sign, then a
valid digit run; anything else raises `ValueError` (`none`). -/
def pyParseIntChars : List Char → Option ℤ
  | '+' :: cs => if pyIntDigits cs then some (pyIntValue cs) else none
  | '-' :: cs => if pyIntDigits cs then some (-(pyIntValue cs : ℤ)) else none
  | cs => if pyIntDigits cs then some (pyIntValue cs) else none

/-- Strip leading and trailing whitespace. -/
def stripWS (l : List Char) : List Char :=
  ((l.dropWhile Char.isWhitespace).reverse.dropWhile Char.isWhitespace).reverse

/-- Python `int(s)` on a string argument. -/
def pyParseInt (s : String) : Option ℤ :=
  pyParseIntChars (stripWS s.data)

/-- `year, month = map(int, sys.argv[1:])` (line 298): succeeds exactly when
the argument list has exactly two elements and both parse as integers;
any other shape or a parse failure raises, landing in the bare `except`. -/
def parse_cli_args : List String → Option (ℤ × ℤ)
  | [a, b] =>
    match pyParseInt a, pyParseInt b with
    | some y, some m => some (y, m)
    | _, _ => none
  | _ => none

/-- Outcome of the argument-handling prologue of `main` (lines 293-301). -/
inductive CliOutcome where
  | runReportAuto
  | runReport (year month : ℤ)
  | usageExit (exitCode : ℕ)
deriving DecidableEq, Repr

/-- The argument-handling prologue of `main` (lines 293-301): no arguments →
automatic year/month; a successful two-integer parse → run with them; any
exception → print usage to stderr and `sys.exit(0)`, before any report
output is produced. -/
def main_dispatch (argv_tail : List String) : CliOutcome :=
  if argv_tail = [] then .runReportAuto
  else
    match parse_cli_args argv_tail with
    | some (y, m) => .runReport y m
    | none => .usageExit 0

/-! ## Helper lemmas -/

lemma record_adder_assoc (a b c : Record) :
    record_adder (record_adder a b) c = record_adder a (record_adder b c) := by
  simp only [record_adder, Record.mk.injEq]
  refine ⟨min_assoc _ _ _, max_assoc _ _ _, add_assoc _ _ _,
    add_assoc _ _ _, min_assoc _ _ _, add_assoc _ _ _⟩

lemma record_adder_comm (a b : Record) :
    record_adder a b = record_adder b a := by
  simp only [record_adder, Record.mk.injEq]
  refine ⟨min_comm _ _, max_comm _ _, add_comm _ _,
    add_comm _ _, min_comm _ _, add_comm _ _⟩

lemma record_adder_right_comm (a x y : Record) :
    record_adder (record_adder a x) y = record_adder (record_adder a y) x := by
  simp only [record_adder, Record.mk.injEq]
  refine ⟨min_right_comm _ _ _, Max.right_comm _ _ _, add_right_comm _ _ _,
    add_right_comm _ _ _, min_right_comm _ _ _, add_right_comm _ _ _⟩

lemma foldl_record_adder_perm {l1 l2 : List Record} (h : l1.Perm l2) :
    ∀ a : Record, l1.foldl record_adder a = l2.foldl record_adder a := by
  induction h with
  | nil => intro a; rfl
  | cons x _ ih => intro a; simpa using ih (record_adder a x)
  | swap x y l =>
      intro a
      simp only [List.foldl_cons]
      rw [record_adder_right_comm]
  | trans _ _ ih1 ih2 => intro a; rw [ih1 a, ih2 a]

/-! ## Theorems for the claims -/

/-- Claim C2: `norm_factor`, applied per leaf before any merge, agrees with
the spec's `resolveFactor` on every input: filter to strictly positive
observed values; none → 12.0; exactly one → that value unchanged; several →
their exact arithmetic mean with duplicates counted individually; and in
every case a result ≥ 200.0 is replaced by the site's table entry when
present, else 12.0.  Purity is definitional in this embedding: the result
depends only on the observed values, the site and the (fixed) table. -/
theorem norm_factor_matches_resolveFactorSpec
    (nf_table : List (String × ℚ)) (observed : List ℚ) (site : String) :
    norm_factor nf_table observed site = resolveFactorSpec nf_table observed site := by
  unfold norm_factor resolveFactorSpec nf_default nf_max
  simp only [ge_iff_le, one_mul, List.length_eq_zero]
  cases h : List.lookup site nf_table <;> simp [h]

/-- Claim C3: the record merge `record_adder` is associative and
commutative — min of `mintime`, max of `maxtime`, sums of the durations and
job count, min of the already-resolved normalization factors — and
consequently folding the leaves sharing a key in any order (any permutation)
yields the same merged record. -/
theorem record_adder_assoc_comm_fold :
    (∀ a b c : Record,
        record_adder (record_adder a b) c = record_adder a (record_adder b c)) ∧
    (∀ a b : Record, record_adder a b = record_adder b a) ∧
    (∀ (l1 l2 : List Record), l1.Perm l2 →
        ∀ a : Record, l1.foldl record_adder a = l2.foldl record_adder a) :=
  ⟨record_adder_assoc, record_adder_comm, fun _ _ h => foldl_record_adder_perm h⟩

/-- Witness for C3: the fold clause applied to a concrete permutation of two
concrete records. -/
theorem record_adder_assoc_comm_fold_witness :
    [Record.mk 1 5 10 20 8 1, Record.mk 2 9 30 40 16 1].Perm
      [Record.mk 2 9 30 40 16 1, Record.mk 1 5 10 20 8 1] ∧
    [Record.mk 1 5 10 20 8 1, Record.mk 2 9 30 40 16 1].foldl record_adder
        (Record.mk 3 3 0 0 12 0) =
      [Record.mk 2 9 30 40 16 1, Record.mk 1 5 10 20 8 1].foldl record_adder
        (Record.mk 3 3 0 0 12 0) :=
  ⟨List.Perm.swap _ _ _,
   record_adder_assoc_comm_fold.2.2 _ _ (List.Perm.swap _ _ _) _⟩

/-- Claim C7: `record_adder` preserves the Record invariant — if both
operands have `mintime ≤ maxtime` and non-negative durations and job count,
so does the merged record. -/
theorem record_adder_preserves_invariant (a b : Record)
    (ha : RecordInvariant a) (hb : RecordInvariant b) :
    RecordInvariant (record_adder a b) := by
  obtain ⟨ha1, ha2, ha3, ha4⟩ := ha
  obtain ⟨hb1, hb2, hb3, hb4⟩ := hb
  refine ⟨?_, ?_, ?_, ?_⟩ <;> simp only [record_adder]
  · exact le_trans (min_le_left _ _) (le_trans ha1 (le_max_left _ _))
  · exact add_nonneg ha2 hb2
  · exact add_nonneg ha3 hb3
  · exact add_nonneg ha4 hb4

/-- Witness for C7: invariant preservation at two concrete records. -/
theorem record_adder_preserves_invariant_witness :
    RecordInvariant (Record.mk 1 5 10 20 8 1) ∧
    RecordInvariant (Record.mk 2 9 30 40 16 1) ∧
    RecordInvariant (record_adder (Record.mk 1 5 10 20 8 1) (Record.mk 2 9 30 40 16 1)) :=
  ⟨by constructor <;> simp [RecordInvariant],
   by constructor <;> simp [RecordInvariant],
   record_adder_preserves_invariant _ _
     (by constructor <;> simp [RecordInvariant])
     (by constructor <;> simp [RecordInvariant])⟩

lemma isclose_zero_iff (q : ℚ) : isclose q 0 = true ↔ q = 0 := by
  unfold isclose isclose_rel_tol isclose_abs_tol
  rw [decide_eq_true_iff]
  rw [sub_zero, abs_zero, max_eq_left (abs_nonneg q),
    max_eq_left (by positivity : (0:ℚ) ≤ 1 / 1000000000 * |q|)]
  constructor
  · intro h
    have h0 : |q| ≤ 0 := by linarith
    exact abs_eq_zero.mp (le_antisymm h0 (abs_nonneg q))
  · rintro rfl; simp

lemma print_rk_recr_cases (resource_group_map : List (String × ℚ))
    (year month : ℤ) (rk : RecordKey) (rec1 : Record) :
    print_rk_recr resource_group_map year month rk rec1 =
      (let dn := if rk.dn = "N/A" then "generic " ++ rk.vo ++ " user" else rk.dn
       let p := get_hs23_portion resource_group_map rk.site
       if isclose p 0 then
         [apel_line year month rk rec1 dn "hepspec-hosts" (1 - p) "hepspec"]
       else
         [apel_line year month rk rec1 dn "hepspec-hosts" (1 - p) "hepspec",
          apel_line year month rk rec1 dn "hepscore-hosts" p "HEPscore23"]) := by
  unfold print_rk_recr
  cases h : isclose (get_hs23_portion resource_group_map rk.site) 0 <;>
    simp [h, List.range_succ]

/-- Claim C4: for every merged (RecordKey, Record) pair whose site's hs23
portion is not approximately 0, `print_rk_recr` emits exactly two lines —
first portion `1 - hs23Portion`, metric name "hepspec", submit host
"hepspec-hosts", then portion `hs23Portion`, metric name "HEPscore23",
submit host "hepscore-hosts"; when the portion is approximately 0 it emits
the single "hepspec" line only, computed with portion 1.0. -/
theorem print_rk_recr_line_shape (resource_group_map : List (String × ℚ))
    (year month : ℤ) (rk : RecordKey) (rec1 : Record) :
    print_rk_recr resource_group_map year month rk rec1 =
      (let dn := if rk.dn = "N/A" then "generic " ++ rk.vo ++ " user" else rk.dn
       let p := get_hs23_portion resource_group_map rk.site
       if isclose p 0 then
         [apel_line year month rk rec1 dn "hepspec-hosts" 1 "hepspec"]
       else
         [apel_line year month rk rec1 dn "hepspec-hosts" (1 - p) "hepspec",
          apel_line year month rk rec1 dn "hepscore-hosts" p "HEPscore23"]) := by
  rw [print_rk_recr_cases]
  cases h : isclose (get_hs23_portion resource_group_map rk.site) 0
  · simp [h]
  · have hp : get_hs23_portion resource_group_map rk.site = 0 :=
      (isclose_zero_iff _).mp h
    simp [h, hp]

/-- Claim C5: the `LatestEndTime` value written in every emitted output line
equals the record's `maxtime` plus 86399 (24 hours minus one second). -/
theorem latestEndTime_eq_maxtime_plus_86399 (resource_group_map : List (String × ℚ))
    (year month : ℤ) (rk : RecordKey) (rec1 : Record) :
    ∀ line ∈ print_rk_recr resource_group_map year month rk rec1,
      line.latestEndTime = rec1.maxtime + 86399 := by
  intro line hline
  rw [print_rk_recr_cases] at hline
  cases h : isclose (get_hs23_portion resource_group_map rk.site) 0 <;>
      simp [h] at hline
  · rcases hline with rfl | rfl <;> (simp [apel_line]; omega)
  · subst hline; simp [apel_line]; omega

/-- Witness for C5: the theorem applied to a concrete map, key and record,
at the single line that run emits. -/
theorem latestEndTime_eq_maxtime_plus_86399_witness :
    (apel_line 2024 3 (RecordKey.mk "cms" "S" 8 "u") (Record.mk 0 0 0 0 12 0)
        "u" "hepspec-hosts" (1 - 0) "hepspec"
      ∈ print_rk_recr [] 2024 3 (RecordKey.mk "cms" "S" 8 "u") (Record.mk 0 0 0 0 12 0)) ∧
    (apel_line 2024 3 (RecordKey.mk "cms" "S" 8 "u") (Record.mk 0 0 0 0 12 0)
        "u" "hepspec-hosts" (1 - 0) "hepspec").latestEndTime =
      (Record.mk 0 0 0 0 12 0 : Record).maxtime + 86399 := by
  have hmem : apel_line 2024 3 (RecordKey.mk "cms" "S" 8 "u") (Record.mk 0 0 0 0 12 0)
        "u" "hepspec-hosts" (1 - 0) "hepspec"
      ∈ print_rk_recr [] 2024 3 (RecordKey.mk "cms" "S" 8 "u") (Record.mk 0 0 0 0 12 0) := by
    rw [print_rk_recr_cases]
    simp only [get_hs23_portion, List.lookup_nil, Option.getD_none]
    rw [if_pos ((isclose_zero_iff 0).mpr rfl)]
    simp
  exact ⟨hmem,
    latestEndTime_eq_maxtime_plus_86399 [] 2024 3 (RecordKey.mk "cms" "S" 8 "u")
      (Record.mk 0 0 0 0 12 0) _ hmem⟩

/-- Claim C10: `math.isclose` with default tolerances (relative tolerance
only, absolute tolerance 0) compares a value against 0.0 exactly — it is
true iff the value is exactly 0 — so the emitter's single-line branch is
taken exactly when the site's hs23 portion is 0.0, and any nonzero portion,
however small, yields two output lines. -/
theorem isclose_zero_is_exact (resource_group_map : List (String × ℚ))
    (year month : ℤ) (rk : RecordKey) (rec1 : Record) (q : ℚ) :
    (isclose q 0 = true ↔ q = 0) ∧
    (print_rk_recr resource_group_map year month rk rec1).length =
      (if get_hs23_portion resource_group_map rk.site = 0 then 1 else 2) := by
  refine ⟨isclose_zero_iff q, ?_⟩
  rw [print_rk_recr_cases]
  by_cases hp : get_hs23_portion resource_group_map rk.site = 0
  · have ht : isclose (get_hs23_portion resource_group_map rk.site) 0 = true :=
      (isclose_zero_iff _).mpr hp
    simp only [ht]
    simp [hp]
  · have h : isclose (get_hs23_portion resource_group_map rk.site) 0 = false := by
      rw [Bool.eq_false_iff]
      intro ht
      exact hp ((isclose_zero_iff _).mp ht)
    simp [hp, h]

lemma parse_cli_args_some {l : List String} {y mo : ℤ}
    (h : parse_cli_args l = some (y, mo)) :
    ∃ a b, l = [a, b] ∧ pyParseInt a = some y ∧ pyParseInt b = some mo := by
  match l with
  | [] => simp [parse_cli_args] at h
  | [a] => simp [parse_cli_args] at h
  | [a, b] =>
      cases hA : pyParseInt a with
      | none => simp [parse_cli_args, hA] at h
      | some yv =>
        cases hB : pyParseInt b with
        | none => simp [parse_cli_args, hA, hB] at h
        | some mv =>
          simp [parse_cli_args, hA, hB] at h
          exact ⟨a, b, rfl, by rw [hA, h.1], by rw [hB, h.2]⟩
  | a :: b :: c :: t => simp [parse_cli_args] at h

/-- Claim C8: for every non-empty command-line argument list that is not
exactly two integer-parseable tokens (non-numeric or wrong arity), `main`
prints the usage message to the error stream and exits with status 0,
producing no report output: `main_dispatch` returns the usage outcome with
exit code 0 rather than a report-producing outcome. -/
theorem cli_bad_args_usage_exit_zero (argv_tail : List String)
    (hne : argv_tail ≠ [])
    (hbad : ¬ ∃ a b y mo, argv_tail = [a, b] ∧
        pyParseInt a = some y ∧ pyParseInt b = some mo) :
    main_dispatch argv_tail = .usageExit 0 := by
  unfold main_dispatch
  rw [if_neg hne]
  cases hp : parse_cli_args argv_tail with
  | none => rfl
  | some ym =>
      exfalso
      obtain ⟨y, mo⟩ := ym
      obtain ⟨a, b, hab, hy, hm⟩ := parse_cli_args_some hp
      exact hbad ⟨a, b, y, mo, hab, hy, hm⟩

/-- Witness for C8: the theorem applied to the concrete argument list
`["12", "x"]`, whose second token does not parse as an integer. -/
theorem cli_bad_args_usage_exit_zero_witness :
    (["12", "x"] : List String) ≠ [] ∧
    (¬ ∃ a b y mo, (["12", "x"] : List String) = [a, b] ∧
        pyParseInt a = some y ∧ pyParseInt b = some mo) ∧
    main_dispatch ["12", "x"] = .usageExit 0 := by
  have hbad : ¬ ∃ a b y mo, (["12", "x"] : List String) = [a, b] ∧
      pyParseInt a = some y ∧ pyParseInt b = some mo := by
    rintro ⟨a, b, y, mo, hab, hy, hm⟩
    injection hab with h1 h2
    injection h2 with h3 h4
    rw [← h3] at hm
    rw [show pyParseInt "x" = none from rfl] at hm
    cases hm
  exact ⟨by simp, hbad, cli_bad_args_usage_exit_zero _ (by simp) hbad⟩

/-- Claim C9: for every record `r` and every key `k` not yet present in the
accumulator map, adding `r` under `k` (`recs[k] += r`) stores exactly `r`:
the freshly defaulted empty `autodict` is an identity element for record
addition (its `__add__` returns the other operand), and in `add_record` a
key reached by a single leaf ends up with that leaf's record unchanged. -/
theorem fresh_key_stores_record_exactly :
    (∀ r : Record, autodict_add .autodictDefault r = r) ∧
    (∀ (recs : Recs) (rk : RecordKey) (r : Record), recs rk = none →
        recs_iadd recs rk r rk = some r) ∧
    (∀ (nf_table : List (String × ℚ)) (recs : Recs) (vo site : String)
        (cores : ℤ) (dn : String) (bkt : Bkt),
        recs (RecordKey.mk vo (canonical_site site vo) cores dn) = none →
        add_record nf_table recs vo site cores dn bkt
            (RecordKey.mk vo (canonical_site site vo) cores dn) =
          some (bkt_record nf_table bkt (canonical_site site vo))) := by
  refine ⟨fun r => rfl, ?_, ?_⟩
  · intro recs rk r h
    simp [recs_iadd, recs_get, h, autodict_add]
  · intro tbl recs vo site cores dn bkt h
    simp [add_record, recs_iadd, recs_get, h, autodict_add]

/-- Witness for C9: inserting a concrete record under a concrete key into
the empty accumulator stores exactly that record. -/
theorem fresh_key_stores_record_exactly_witness :
    ((fun _ => none : Recs) (RecordKey.mk "cms" "S" 8 "u") = none) ∧
    recs_iadd (fun _ => none) (RecordKey.mk "cms" "S" 8 "u") (Record.mk 0 0 0 0 12 0)
        (RecordKey.mk "cms" "S" 8 "u") = some (Record.mk 0 0 0 0 12 0) :=
  ⟨rfl, fresh_key_stores_record_exactly.2.1 _ _ _ rfl⟩

lemma build_resource_group_map_lookup (raw : List (String × List Resource))
    (name : String) :
    List.lookup name (build_resource_group_map raw) =
      (List.lookup name raw).map fun resources =>
        let ps := resources.filterMap fun r => r.hepScore23Percentage
        if 0 < ps.length then mean ps else 0 := by
  induction raw with
  | nil => rfl
  | cons hd tl ih =>
      obtain ⟨a, rs⟩ := hd
      simp only [build_resource_group_map, List.map_cons] at *
      cases h : (name == a)
      · simpa [List.lookup, h] using ih
      · simp [List.lookup, h]

/-- Claim C1, amended: for every resource-group name, `get_hs23_portion`
returns the arithmetic mean of that resource group's present HEPScore23
percentage values unchanged — no division by 100 occurs when the map is
built or at the call site, so the value stays on the data's 0-100 scale and
is not confined to [0,1]; resource groups with no percentage values, and
names absent from the fetched map, yield 0.0. -/
theorem get_hs23_portion_raw_mean (raw : List (String × List Resource))
    (name : String) :
    (List.lookup name raw = none →
        get_hs23_portion (build_resource_group_map raw) name = 0) ∧
    (∀ resources, List.lookup name raw = some resources →
        get_hs23_portion (build_resource_group_map raw) name =
          (if 0 < (resources.filterMap fun r => r.hepScore23Percentage).length
           then mean (resources.filterMap fun r => r.hepScore23Percentage)
           else 0)) := by
  constructor
  · intro h
    unfold get_hs23_portion
    rw [build_resource_group_map_lookup, h]
    rfl
  · intro resources h
    unfold get_hs23_portion
    rw [build_resource_group_map_lookup, h]
    rfl

/-- Counterexample for C1 as stated: a resource group whose single resource
reports `HEPScore23Percentage = 50` makes `get_hs23_portion` return 50,
which is not in [0,1] (and is not the fraction 0.5 the claim's division by
100 would give). -/
theorem get_hs23_portion_not_a_fraction :
    get_hs23_portion (build_resource_group_map
        [("RG", [Resource.mk (some 50)])]) "RG" = 50 ∧
    ¬ get_hs23_portion (build_resource_group_map
        [("RG", [Resource.mk (some 50)])]) "RG" ≤ 1 := by
  have h : get_hs23_portion (build_resource_group_map
      [("RG", [Resource.mk (some 50)])]) "RG" = 50 := by
    norm_num [get_hs23_portion, build_resource_group_map, mean, List.lookup,
      List.filterMap_cons]
  exact ⟨h, by rw [h]; norm_num⟩

/-- Witness for C1 (amended): both clauses applied at a concrete fetched
map — a present group with two percentage values, and an absent name. -/
theorem get_hs23_portion_raw_mean_witness :
    (List.lookup "RG" [("RG", [Resource.mk (some 50), Resource.mk (some 100)])] =
        some [Resource.mk (some 50), Resource.mk (some 100)]) ∧
    get_hs23_portion (build_resource_group_map
        [("RG", [Resource.mk (some 50), Resource.mk (some 100)])]) "RG" =
      (if 0 < (([Resource.mk (some 50), Resource.mk (some 100)]).filterMap
            fun r => r.hepScore23Percentage).length
       then mean (([Resource.mk (some 50), Resource.mk (some 100)]).filterMap
            fun r => r.hepScore23Percentage)
       else 0) ∧
    (List.lookup "ZZ" [("RG", [Resource.mk (some 50), Resource.mk (some 100)])] =
        (none : Option (List Resource))) ∧
    get_hs23_portion (build_resource_group_map
        [("RG", [Resource.mk (some 50), Resource.mk (some 100)])]) "ZZ" = 0 := by
  refine ⟨by simp [List.lookup], ?_, by simp [List.lookup], ?_⟩
  · exact (get_hs23_portion_raw_mean _ "RG").2 _ (by simp [List.lookup])
  · exact (get_hs23_portion_raw_mean _ "ZZ").1 (by simp [List.lookup])

lemma floor_pair_bounds (x y : ℚ) :
    ((⌊x⌋ + ⌊y⌋ : ℤ) : ℚ) ≤ x + y ∧ x + y - 2 < ((⌊x⌋ + ⌊y⌋ : ℤ) : ℚ) := by
  constructor
  · push_cast
    linarith [Int.floor_le x, Int.floor_le y]
  · push_cast
    linarith [Int.sub_one_lt_floor x, Int.sub_one_lt_floor y]

lemma floor_split_int_bounds (w : ℤ) (p : ℚ) :
    ⌊(w : ℚ) * (1 - p)⌋ + ⌊(w : ℚ) * p⌋ ≤ w ∧
      w - 2 < ⌊(w : ℚ) * (1 - p)⌋ + ⌊(w : ℚ) * p⌋ := by
  have h := floor_pair_bounds ((w : ℚ) * (1 - p)) ((w : ℚ) * p)
  have hx : (w : ℚ) * (1 - p) + (w : ℚ) * p = (w : ℚ) := by ring
  rw [hx] at h
  constructor
  · exact_mod_cast h.1
  · exact_mod_cast h.2

lemma floor_split_rat_bounds (t p : ℚ) :
    ((⌊t * (1 - p)⌋ + ⌊t * p⌋ : ℤ) : ℚ) ≤ t ∧
      t - 2 < ((⌊t * (1 - p)⌋ + ⌊t * p⌋ : ℤ) : ℚ) := by
  have h := floor_pair_bounds (t * (1 - p)) (t * p)
  have hx : t * (1 - p) + t * p = t := by ring
  rw [hx] at h
  exact h

lemma pyTrunc_of_nonneg {q : ℚ} (h : 0 ≤ q) : pyTrunc q = ⌊q⌋ := if_pos h

/-- Claim C6: when a record is split into a "hepspec" line with portion
`1 - p` and a "HEPscore23" line with portion `p` (0 < p < 1), each emitted
WallDuration, CpuDuration, normalised duration and NumberOfJobs value is
the product with its portion truncated to an integer (truncation = floor on
these non-negative products), and for each metric the two emitted values
sum to at most the record's original total, losing at most one unit per
line to flooring (strictly more than total − 2). -/
theorem split_lines_truncation_bounds (resource_group_map : List (String × ℚ))
    (year month : ℤ) (rk : RecordKey) (rec1 : Record) (p : ℚ)
    (hp : p = get_hs23_portion resource_group_map rk.site)
    (hp0 : 0 < p) (hp1 : p < 1)
    (hw : 0 ≤ rec1.walldur) (hc : 0 ≤ rec1.cpudur) (hj : 0 ≤ rec1.njobs)
    (hnf : 0 ≤ rec1.nf) :
    ∃ l0 l1 : OutputLine,
      print_rk_recr resource_group_map year month rk rec1 = [l0, l1] ∧
      l0.wallDuration = ⌊(rec1.walldur : ℚ) * (1 - p)⌋ ∧
      l1.wallDuration = ⌊(rec1.walldur : ℚ) * p⌋ ∧
      l0.cpuDuration = ⌊(rec1.cpudur : ℚ) * (1 - p)⌋ ∧
      l1.cpuDuration = ⌊(rec1.cpudur : ℚ) * p⌋ ∧
      l0.normalisedWallDuration = ⌊(rec1.walldur : ℚ) * rec1.nf * (1 - p)⌋ ∧
      l1.normalisedWallDuration = ⌊(rec1.walldur : ℚ) * rec1.nf * p⌋ ∧
      l0.normalisedCpuDuration = ⌊(rec1.cpudur : ℚ) * rec1.nf * (1 - p)⌋ ∧
      l1.normalisedCpuDuration = ⌊(rec1.cpudur : ℚ) * rec1.nf * p⌋ ∧
      l0.numberOfJobs = ⌊(rec1.njobs : ℚ) * (1 - p)⌋ ∧
      l1.numberOfJobs = ⌊(rec1.njobs : ℚ) * p⌋ ∧
      (l0.wallDuration + l1.wallDuration ≤ rec1.walldur ∧
        rec1.walldur - 2 < l0.wallDuration + l1.wallDuration) ∧
      (l0.cpuDuration + l1.cpuDuration ≤ rec1.cpudur ∧
        rec1.cpudur - 2 < l0.cpuDuration + l1.cpuDuration) ∧
      (l0.numberOfJobs + l1.numberOfJobs ≤ rec1.njobs ∧
        rec1.njobs - 2 < l0.numberOfJobs + l1.numberOfJobs) ∧
      (((l0.normalisedWallDuration + l1.normalisedWallDuration : ℤ) : ℚ) ≤
          (rec1.walldur : ℚ) * rec1.nf ∧
        (rec1.walldur : ℚ) * rec1.nf - 2 <
          ((l0.normalisedWallDuration + l1.normalisedWallDuration : ℤ) : ℚ)) ∧
      (((l0.normalisedCpuDuration + l1.normalisedCpuDuration : ℤ) : ℚ) ≤
          (rec1.cpudur : ℚ) * rec1.nf ∧
        (rec1.cpudur : ℚ) * rec1.nf - 2 <
          ((l0.normalisedCpuDuration + l1.normalisedCpuDuration : ℤ) : ℚ)) := by
  have hfalse : isclose (get_hs23_portion resource_group_map rk.site) 0 = false := by
    rw [Bool.eq_false_iff]
    intro ht
    exact absurd ((isclose_zero_iff _).mp ht) (by rw [← hp]; exact ne_of_gt hp0)
  have hshape := print_rk_recr_cases resource_group_map year month rk rec1
  simp only [hfalse, Bool.false_eq_true, if_false] at hshape
  rw [← hp] at hshape
  have h1p : (0:ℚ) ≤ 1 - p := by linarith
  have hple : (0:ℚ) ≤ p := le_of_lt hp0
  have hwq : (0:ℚ) ≤ (rec1.walldur : ℚ) := by exact_mod_cast hw
  have hcq : (0:ℚ) ≤ (rec1.cpudur : ℚ) := by exact_mod_cast hc
  have hjq : (0:ℚ) ≤ (rec1.njobs : ℚ) := by exact_mod_cast hj
  refine ⟨_, _, hshape, ?_, ?_, ?_, ?_, ?_, ?_, ?_, ?_, ?_, ?_, ?_, ?_, ?_, ?_, ?_⟩
  · exact pyTrunc_of_nonneg (mul_nonneg hwq h1p)
  · exact pyTrunc_of_nonneg (mul_nonneg hwq hple)
  · exact pyTrunc_of_nonneg (mul_nonneg hcq h1p)
  · exact pyTrunc_of_nonneg (mul_nonneg hcq hple)
  · exact pyTrunc_of_nonneg (mul_nonneg (mul_nonneg hwq hnf) h1p)
  · exact pyTrunc_of_nonneg (mul_nonneg (mul_nonneg hwq hnf) hple)
  · exact pyTrunc_of_nonneg (mul_nonneg (mul_nonneg hcq hnf) h1p)
  · exact pyTrunc_of_nonneg (mul_nonneg (mul_nonneg hcq hnf) hple)
  · exact pyTrunc_of_nonneg (mul_nonneg hjq h1p)
  · exact pyTrunc_of_nonneg (mul_nonneg hjq hple)
  · simp only [apel_line,
      pyTrunc_of_nonneg (mul_nonneg hwq h1p), pyTrunc_of_nonneg (mul_nonneg hwq hple)]
    exact floor_split_int_bounds rec1.walldur p
  · simp only [apel_line,
      pyTrunc_of_nonneg (mul_nonneg hcq h1p), pyTrunc_of_nonneg (mul_nonneg hcq hple)]
    exact floor_split_int_bounds rec1.cpudur p
  · simp only [apel_line,
      pyTrunc_of_nonneg (mul_nonneg hjq h1p), pyTrunc_of_nonneg (mul_nonneg hjq hple)]
    exact floor_split_int_bounds rec1.njobs p
  · simp only [apel_line,
      pyTrunc_of_nonneg (mul_nonneg (mul_nonneg hwq hnf) h1p),
      pyTrunc_of_nonneg (mul_nonneg (mul_nonneg hwq hnf) hple)]
    exact floor_split_rat_bounds ((rec1.walldur : ℚ) * rec1.nf) p
  · simp only [apel_line,
      pyTrunc_of_nonneg (mul_nonneg (mul_nonneg hcq hnf) h1p),
      pyTrunc_of_nonneg (mul_nonneg (mul_nonneg hcq hnf) hple)]
    exact floor_split_rat_bounds ((rec1.cpudur : ℚ) * rec1.nf) p

/-- Witness for C6: the theorem applied at a concrete map (portion 1/2),
key and record with wallDuration = cpuDuration = 3, normFactor = 10,
jobCount = 1. -/
theorem split_lines_truncation_bounds_witness :
    ((1/2 : ℚ) = get_hs23_portion [("SiteA", 1/2)] "SiteA") ∧
    (0 < (1/2 : ℚ)) ∧ ((1/2 : ℚ) < 1) ∧
    (0 ≤ (Record.mk 100 200 3 3 10 1 : Record).walldur) ∧
    (0 ≤ (Record.mk 100 200 3 3 10 1 : Record).cpudur) ∧
    (0 ≤ (Record.mk 100 200 3 3 10 1 : Record).njobs) ∧
    (0 ≤ (Record.mk 100 200 3 3 10 1 : Record).nf) ∧
    (∃ l0 l1 : OutputLine,
      print_rk_recr [("SiteA", 1/2)] 2024 3 (RecordKey.mk "cms" "SiteA" 8 "N/A")
          (Record.mk 100 200 3 3 10 1) = [l0, l1] ∧
      l0.wallDuration = ⌊((Record.mk 100 200 3 3 10 1 : Record).walldur : ℚ) * (1 - (1/2 : ℚ))⌋ ∧
      l1.wallDuration = ⌊((Record.mk 100 200 3 3 10 1 : Record).walldur : ℚ) * (1/2 : ℚ)⌋ ∧
      l0.cpuDuration = ⌊((Record.mk 100 200 3 3 10 1 : Record).cpudur : ℚ) * (1 - (1/2 : ℚ))⌋ ∧
      l1.cpuDuration = ⌊((Record.mk 100 200 3 3 10 1 : Record).cpudur : ℚ) * (1/2 : ℚ)⌋ ∧
      l0.normalisedWallDuration =
        ⌊((Record.mk 100 200 3 3 10 1 : Record).walldur : ℚ) *
          (Record.mk 100 200 3 3 10 1 : Record).nf * (1 - (1/2 : ℚ))⌋ ∧
      l1.normalisedWallDuration =
        ⌊((Record.mk 100 200 3 3 10 1 : Record).walldur : ℚ) *
          (Record.mk 100 200 3 3 10 1 : Record).nf * (1/2 : ℚ)⌋ ∧
      l0.normalisedCpuDuration =
        ⌊((Record.mk 100 200 3 3 10 1 : Record).cpudur : ℚ) *
          (Record.mk 100 200 3 3 10 1 : Record).nf * (1 - (1/2 : ℚ))⌋ ∧
      l1.normalisedCpuDuration =
        ⌊((Record.mk 100 200 3 3 10 1 : Record).cpudur : ℚ) *
          (Record.mk 100 200 3 3 10 1 : Record).nf * (1/2 : ℚ)⌋ ∧
      l0.numberOfJobs = ⌊((Record.mk 100 200 3 3 10 1 : Record).njobs : ℚ) * (1 - (1/2 : ℚ))⌋ ∧
      l1.numberOfJobs = ⌊((Record.mk 100 200 3 3 10 1 : Record).njobs : ℚ) * (1/2 : ℚ)⌋ ∧
      (l0.wallDuration + l1.wallDuration ≤ (Record.mk 100 200 3 3 10 1 : Record).walldur ∧
        (Record.mk 100 200 3 3 10 1 : Record).walldur - 2 < l0.wallDuration + l1.wallDuration) ∧
      (l0.cpuDuration + l1.cpuDuration ≤ (Record.mk 100 200 3 3 10 1 : Record).cpudur ∧
        (Record.mk 100 200 3 3 10 1 : Record).cpudur - 2 < l0.cpuDuration + l1.cpuDuration) ∧
      (l0.numberOfJobs + l1.numberOfJobs ≤ (Record.mk 100 200 3 3 10 1 : Record).njobs ∧
        (Record.mk 100 200 3 3 10 1 : Record).njobs - 2 < l0.numberOfJobs + l1.numberOfJobs) ∧
      (((l0.normalisedWallDuration + l1.normalisedWallDuration : ℤ) : ℚ) ≤
          ((Record.mk 100 200 3 3 10 1 : Record).walldur : ℚ) *
            (Record.mk 100 200 3 3 10 1 : Record).nf ∧
        ((Record.mk 100 200 3 3 10 1 : Record).walldur : ℚ) *
            (Record.mk 100 200 3 3 10 1 : Record).nf - 2 <
          ((l0.normalisedWallDuration + l1.normalisedWallDuration : ℤ) : ℚ)) ∧
      (((l0.normalisedCpuDuration + l1.normalisedCpuDuration : ℤ) : ℚ) ≤
          ((Record.mk 100 200 3 3 10 1 : Record).cpudur : ℚ) *
            (Record.mk 100 200 3 3 10 1 : Record).nf ∧
        ((Record.mk 100 200 3 3 10 1 : Record).cpudur : ℚ) *
            (Record.mk 100 200 3 3 10 1 : Record).nf - 2 <
          ((l0.normalisedCpuDuration + l1.normalisedCpuDuration : ℤ) : ℚ))) := by
  have hp : (1/2 : ℚ) = get_hs23_portion [("SiteA", 1/2)] "SiteA" := by
    simp [get_hs23_portion, List.lookup]
  refine ⟨hp, by norm_num, by norm_num, by norm_num, by norm_num, by norm_num,
    by norm_num, ?_⟩
  exact split_lines_truncation_bounds [("SiteA", 1/2)] 2024 3
    (RecordKey.mk "cms" "SiteA" 8 "N/A") (Record.mk 100 200 3 3 10 1) (1/2) hp
    (by norm_num) (by norm_num) (by norm_num) (by norm_num) (by norm_num) (by norm_num)

end ApelReport
